import Mathlib

/-!
Verification development for the legacy user migration script
(`scripts/migrate-legacy-users.ts`).

The script's own logic (framing of salt/IV/ciphertext, base64 persistence,
key validation, SQL statement generation, the per-row migration loop) is
embedded directly.  Platform primitives that the script calls
(WebCrypto PBKDF2 / AES-256-GCM, `TextEncoder`, `JSON.stringify`/`parse` of
the wallet JWK, `btoa`/`atob`) are modelled as ideal, executable versions:

* PBKDF2 is modelled as an ideal (collision-free, deterministic) KDF: the
  derived key is represented by the pair (encoded master key, salt).
* AES-256-GCM is modelled as an ideal authenticated cipher: the ciphertext
  determines the plaintext, and decryption succeeds exactly when the same
  derived key and IV are supplied (a perfectly binding authentication tag).
* `TextEncoder`/`TextDecoder` are modelled as the string's code-point
  sequence (an injective byte encoding; no claim depends on the specific
  UTF-8 byte values).
* `JSON.stringify`/`JSON.parse` of the wallet JWK structure are modelled as
  an injective structural serialization with a computable partial inverse.
* `btoa`/`atob` are implemented as canonical (padded) base64 over byte
  lists; `atob` failure models the `InvalidCharacterError` thrown by the
  platform.

Bytes are `Nat`s (values below 256 in every real execution; the encoders
are total on all of `Nat`, mirroring the fact that the platform functions
are only ever fed genuine bytes).
-/

/-- Base-255 digits of a natural number (least significant first), with an
explicit fuel argument so the definition is structural and kernel-reducible.
Every emitted digit is below 255, so the value 255 can serve as a
terminator. -/
def natDigits : Nat → Nat → List Nat
  | 0, _ => []
  | fuel + 1, n => if n = 0 then [] else n % 255 :: natDigits fuel (n / 255)

/-- Self-delimiting encoding of a natural number: its base-255 digits
followed by the terminator byte 255.  All bytes are at most 255. -/
def encNat (n : Nat) : List Nat := natDigits n n ++ [255]

/-- Partial inverse of `encNat` on a prefix of the input: reads digits up to
the first terminator and returns the decoded number with the rest of the
input. -/
def decNat : List Nat → Option (Nat × List Nat)
  | [] => none
  | b :: bs =>
    if b = 255 then some (0, bs)
    else
      match decNat bs with
      | some (n, rest) => some (b + 255 * n, rest)
      | none => none

/-- Concatenation of the self-delimiting encodings of a list of numbers. -/
def encNats : List Nat → List Nat
  | [] => []
  | n :: ns => encNat n ++ encNats ns

/-- Reads a fixed count of `encNat`-encoded numbers from a prefix of the
input. -/
def decNats : Nat → List Nat → Option (List Nat × List Nat)
  | 0, l => some ([], l)
  | k + 1, l =>
    match decNat l with
    | some (n, l₁) =>
      match decNats k l₁ with
      | some (ns, l₂) => some (n :: ns, l₂)
      | none => none
    | none => none

/-- Self-delimiting encoding of a list of numbers: its length followed by
each element, all `encNat`-encoded.  A prefix code on byte lists. -/
def encBytes (l : List Nat) : List Nat := encNat l.length ++ encNats l

/-- Partial inverse of `encBytes` on a prefix of the input. -/
def decBytes (l : List Nat) : Option (List Nat × List Nat) :=
  match decNat l with
  | some (k, l₁) => decNats k l₁
  | none => none

/-- Model of `TextEncoder.encode`: the string's code-point sequence (an
injective encoding standing in for the UTF-8 bytes; no claim depends on the
concrete byte values of encoded text). -/
def textEncode (s : String) : List Nat := s.data.map Char.toNat

/-- Model of `TextDecoder.decode`, partial inverse of `textEncode`. -/
def textDecode (l : List Nat) : String := String.mk (l.map Char.ofNat)

/-! ### Base64 (`btoa` / `atob`) -/

/-- The base64 alphabet in index order. -/
def base64Chars : List Char :=
  "ABCDEFGHIJKLMNOPQRSTUVWXYZabcdefghijklmnopqrstuvwxyz0123456789+/".data

/-- The base64 character for a sextet value. -/
def b64Char (n : Nat) : Char := base64Chars.getD (n % 64) 'A'

/-- The sextet value of a base64 character, if any. -/
def sextetOf (ch : Char) : Option Nat := base64Chars.findIdx? (fun c => c = ch)

/-- Encodes a byte list into base64 characters, three bytes per four
characters, padding the final group with one or two trailing pad characters
exactly as `btoa` does. -/
def b64EncodeChunks : List Nat → List Char
  | [] => []
  | [b0] => [b64Char (b0 / 4), b64Char (b0 % 4 * 16), pad, pad]
  | [b0, b1] => [b64Char (b0 / 4), b64Char (b0 % 4 * 16 + b1 / 16), b64Char (b1 % 16 * 4), pad]
  | b0 :: b1 :: b2 :: rest =>
    b64Char (b0 / 4) :: b64Char (b0 % 4 * 16 + b1 / 16) ::
      b64Char (b1 % 16 * 4 + b2 / 64) :: b64Char (b2 % 64) :: b64EncodeChunks rest
where
  /-- The base64 pad character. -/
  pad : Char := Char.ofNat 61

/-- Model of `btoa`: canonical padded base64 of a byte list. -/
def btoaM (bs : List Nat) : String := String.mk (b64EncodeChunks bs)

/-- Decodes base64 characters in groups of four; `none` models the
`InvalidCharacterError` thrown by `atob` on malformed input. -/
def b64DecodeChunks : List Char → Option (List Nat)
  | [] => some []
  | c0 :: c1 :: c2 :: c3 :: rest =>
    match sextetOf c0, sextetOf c1 with
    | some s0, some s1 =>
      if c2 = b64EncodeChunks.pad then
        if c3 = b64EncodeChunks.pad ∧ rest = [] then some [s0 * 4 + s1 / 16] else none
      else
        match sextetOf c2 with
        | some s2 =>
          if c3 = b64EncodeChunks.pad then
            if rest = [] then some [s0 * 4 + s1 / 16, s1 % 16 * 16 + s2 / 4] else none
          else
            match sextetOf c3 with
            | some s3 =>
              match b64DecodeChunks rest with
              | some bs => some ((s0 * 4 + s1 / 16) :: (s1 % 16 * 16 + s2 / 4) :: (s2 % 4 * 64 + s3) :: bs)
              | none => none
            | none => none
        | none => none
    | _, _ => none
  | _ => none

/-- Model of `atob`: decodes a base64 string to its byte list, failing on
input that is not canonical base64. -/
def atobM (s : String) : Option (List Nat) := b64DecodeChunks s.data

/-! ### Key derivation and cipher (mirrors the constants and framing of the
script; PBKDF2 and AES-GCM themselves are the ideal models described at the
top of the file) -/

/-- PBKDF2 iteration count used by the script (a compatibility constant; the
ideal KDF model does not consume it computationally). -/
def PBKDF2_ITERATIONS : Nat := 100000

/-- Salt length in bytes (`SALT_LENGTH` in the script). -/
def SALT_LENGTH : Nat := 16

/-- IV (nonce) length in bytes (`IV_LENGTH` in the script). -/
def IV_LENGTH : Nat := 12

/-- A derived AES key.  Ideal-KDF model: PBKDF2-HMAC-SHA256 is deterministic
and collision-free for practical purposes, so the derived key is represented
by the pair of its inputs (the `TextEncoder`-encoded master key and the
salt). -/
structure DerivedKey where
  master : List Nat
  salt : List Nat
deriving DecidableEq

/-- Model of `deriveKey(masterKey, salt)`: encodes the master key exactly as
the script does (`encoder.encode(masterKey)`) and pairs it with the salt. -/
def deriveKey (masterKey : String) (salt : List Nat) : DerivedKey :=
  { master := textEncode masterKey, salt := salt }

/-- The ideal authentication tag: a self-delimiting byte encoding of the
derived key and the IV.  Standing in for the AES-GCM keystream-plus-tag, it
makes decryption succeed exactly when the same key and IV are presented. -/
def gcmTag (key : DerivedKey) (iv : List Nat) : List Nat :=
  encBytes key.master ++ encBytes key.salt ++ encBytes iv

/-- Ideal model of `crypto.subtle.encrypt` with AES-GCM: the output
determines (tag, plaintext) and is strictly longer than the plaintext, as
the real ciphertext-plus-tag is. -/
def gcmEncrypt (key : DerivedKey) (iv : List Nat) (pt : List Nat) : List Nat :=
  gcmTag key iv ++ pt

/-- Ideal model of `crypto.subtle.decrypt` with AES-GCM: succeeds exactly
when the ciphertext was produced under the same derived key and IV; `none`
models the `OperationError` thrown on authentication failure (the same
error the platform raises for truncated or garbled ciphertext). -/
def gcmDecrypt (key : DerivedKey) (iv : List Nat) (ct : List Nat) : Option (List Nat) :=
  if ct.take (gcmTag key iv).length = gcmTag key iv then some (ct.drop (gcmTag key iv).length)
  else none

/-! ### Wallet JWK values and their serialization -/

/-- A parsed JSON Web Key as the script sees it (TypeScript `JsonWebKey`
has all-optional string fields; only these four are ever consulted).
`none` models an absent field. -/
structure Jwk where
  kty : Option String
  n : Option String
  e : Option String
  d : Option String
deriving DecidableEq

/-- Self-delimiting byte encoding of one optional string field. -/
def encOptStr : Option String → List Nat
  | none => encNat 0
  | some s => encNat 1 ++ encBytes (textEncode s)

/-- Model of `encoder.encode(JSON.stringify(jwk))`: an injective structural
serialization of the JWK into bytes, standing in for the UTF-8 JSON text. -/
def jwkToBytes (j : Jwk) : List Nat :=
  encOptStr j.kty ++ encOptStr j.n ++ encOptStr j.e ++ encOptStr j.d

/-- Partial inverse of `encOptStr` on a prefix of the input. -/
def decOptStr (l : List Nat) : Option (Option String × List Nat) :=
  match decNat l with
  | some (0, rest) => some (none, rest)
  | some (1, rest) =>
    match decBytes rest with
    | some (cs, rest₁) => some (some (textDecode cs), rest₁)
    | none => none
  | _ => none

/-- Model of `JSON.parse(new TextDecoder().decode(plaintext))` at the
decryption site: the partial inverse of `jwkToBytes`; `none` models a JSON
`SyntaxError` on bytes that are not a serialized JWK. -/
def jwkOfBytes (l : List Nat) : Option Jwk :=
  match decOptStr l with
  | some (kty, r₁) =>
    match decOptStr r₁ with
    | some (n, r₂) =>
      match decOptStr r₂ with
      | some (e, r₃) =>
        match decOptStr r₃ with
        | some (d, r₄) => if r₄ = [] then some { kty := kty, n := n, e := e, d := d } else none
        | none => none
      | none => none
    | none => none
  | none => none

/-! ### encryptJwk / decryptJwk -/

/-- The pair returned by `encryptJwk`: base64 blob and base64 salt. -/
structure EncBlob where
  encrypted : String
  salt : String
deriving DecidableEq

/-- Model of `encryptJwk(jwk, masterKey)`.  The fresh random salt and IV
drawn from `crypto.getRandomValues` are explicit arguments (randomness is an
input of the model). -/
def encryptJwk (jwk : Jwk) (masterKey : String) (salt iv : List Nat) : EncBlob :=
  let key := deriveKey masterKey salt
  let plaintext := jwkToBytes jwk
  let ciphertext := gcmEncrypt key iv plaintext
  let combined := iv ++ ciphertext
  { encrypted := btoaM combined, salt := btoaM salt }

/-- The JavaScript errors that can surface from `decryptJwk` and the
production-validation step, together with the platform message text used by
the `catch` handler's substring checks. -/
inductive JsError
  | invalidCharacter
  | operationError
  | jsonParseError
  | missingProdFields
deriving DecidableEq

/-- The message text of each modelled error, as the platform produces it:
`atob` raises `InvalidCharacterError`, WebCrypto decryption failure raises
an `OperationError` DOMException, `JSON.parse` raises a `SyntaxError`, and
the script itself throws the missing-fields `Error` with a literal
message. -/
def JsError.message : JsError → String
  | .invalidCharacter => "Invalid character"
  | .operationError => "The operation failed for an operation-specific reason"
  | .jsonParseError => "Unexpected token in JSON"
  | .missingProdFields => "Decrypted production JWK is missing required fields"

/-- Result of `decryptJwk`: a parsed JWK or a thrown error. -/
inductive DecryptResult
  | ok (j : Jwk)
  | error (e : JsError)
deriving DecidableEq

/-- Model of `decryptJwk(encrypted, salt, masterKey)`: base64-decode the
blob and the salt, split the blob into IV (first `IV_LENGTH` bytes) and
ciphertext-plus-tag (remainder), derive the key, run authenticated
decryption, and JSON-parse the plaintext — exactly the script's steps. -/
def decryptJwk (encrypted salt masterKey : String) : DecryptResult :=
  match atobM encrypted with
  | none => .error .invalidCharacter
  | some combined =>
    match atobM salt with
    | none => .error .invalidCharacter
    | some saltBytes =>
      let iv := combined.take IV_LENGTH
      let ciphertext := combined.drop IV_LENGTH
      let key := deriveKey masterKey saltBytes
      match gcmDecrypt key iv ciphertext with
      | none => .error .operationError
      | some plaintext =>
        match jwkOfBytes plaintext with
        | none => .error .jsonParseError
        | some j => .ok j

/-! ### Key validation (`validateEncryptionKey`) -/

/-- The fixed self-test fixture from the script:
`{ kty: "RSA", n: "test-n", e: "AQAB", d: "test-d" }`. -/
def testJwk : Jwk :=
  { kty := some "RSA", n := some "test-n", e := some "AQAB", d := some "test-d" }

/-- The script's step-1 mismatch condition, verbatim:
`decrypted.kty !== testJwk.kty || decrypted.n !== testJwk.n || decrypted.d !== testJwk.d`
(note: the `e` field is not compared). -/
def selfTestCheckFails (decrypted : Jwk) : Bool :=
  if decrypted.kty = testJwk.kty ∧ decrypted.n = testJwk.n ∧ decrypted.d = testJwk.d then false
  else true

/-- The round-trip performed by step 1 of `validateEncryptionKey`: encrypt
the fixture and immediately decrypt it with the same master key.  The
salt/IV drawn for the test encryption are explicit randomness inputs. -/
def selfTestDecrypt (masterKey : String) (salt iv : List Nat) : DecryptResult :=
  decryptJwk (encryptJwk testJwk masterKey salt iv).encrypted
    (encryptJwk testJwk masterKey salt iv).salt masterKey

/-- One production wallet row, as returned by the wrangler query
(`SELECT encrypted_jwk, salt, address FROM wallets LIMIT 1`). -/
structure ProdRow where
  encrypted_jwk : String
  salt : String
  address : String
deriving DecidableEq

/-- The observable outcome of the wrangler subprocess in step 2: its exit
code, and the parsed `results?.[0]?.results` row-set of its JSON output
(`none` when the path is absent). -/
structure LiveQuery where
  exitCode : Nat
  rows : Option (List ProdRow)
deriving DecidableEq

/-- Outcome of `validateEncryptionKey`.  `abortSelfTest` and
`abortKeyMismatch` are the two `process.exit(1)` sites (the latter after the
explicit "key does NOT match production / aborting" diagnostic);
the three `proceed` constructors are the normal returns (the first two after
a warning); `rethrow` is the uncaught `throw e` that escapes the function. -/
inductive ValidationResult
  | abortSelfTest
  | abortKeyMismatch
  | proceedWarnQueryFailed
  | proceedWarnNoRows
  | proceedValidated
  | rethrow (e : JsError)
deriving DecidableEq

/-- JavaScript string falsiness for an optional string value (`undefined`,
`null` and `""` are falsy). -/
def falsy : Option String → Bool
  | none => true
  | some s => s = ""

/-- Model of `String.prototype.includes` (substring containment). -/
def strIncludes (hay needle : String) : Bool :=
  isInfixCh needle.data hay.data
where
  /-- Checks whether the first character list occurs inside the second. -/
  isInfixCh : List Char → List Char → Bool
    | n, [] => n.isEmpty
    | n, c :: t => n.isPrefixOf (c :: t) || isInfixCh n t

/-- The `catch` handler's classification of an error thrown while validating
against production (lines 190–205 of the script): messages containing
"Unsupported state", "decrypt" or "operation" are treated as a confirmed
key mismatch and abort; anything else is rethrown. -/
def classifyCatch (e : JsError) : ValidationResult :=
  if strIncludes e.message "Unsupported state" || strIncludes e.message "decrypt"
      || strIncludes e.message "operation" then
    .abortKeyMismatch
  else .rethrow e

/-- Model of step 2 of `validateEncryptionKey` (the production check):
non-zero subprocess exit → warn and return; missing or empty row-set → warn
and return; otherwise decrypt the sampled wallet, require all four JWK
fields truthy, and classify any thrown error via the `catch` handler. -/
def liveValidate (masterKey : String) (q : LiveQuery) : ValidationResult :=
  if q.exitCode ≠ 0 then .proceedWarnQueryFailed
  else
    match q.rows with
    | none => .proceedWarnNoRows
    | some [] => .proceedWarnNoRows
    | some (row :: _) =>
      match decryptJwk row.encrypted_jwk row.salt masterKey with
      | .error e => classifyCatch e
      | .ok jwk =>
        if falsy jwk.kty || falsy jwk.n || falsy jwk.e || falsy jwk.d then
          classifyCatch .missingProdFields
        else .proceedValidated

/-- Model of `validateEncryptionKey(masterKey)`: the round-trip self-test
(aborting on any decryption error or on the mismatch check), then the
production check. -/
def validateEncryptionKey (masterKey : String) (stSalt stIv : List Nat) (q : LiveQuery) :
    ValidationResult :=
  match selfTestDecrypt masterKey stSalt stIv with
  | .error _ => .abortSelfTest
  | .ok decrypted =>
    if selfTestCheckFails decrypted then .abortSelfTest
    else liveValidate masterKey q

/-! ### SQL generation and the migration loop -/

/-- The single-quote character. -/
def squote : Char := Char.ofNat 39

/-- Doubles every single quote in a character list (the script's
`value.replace(/'/g, "''")`). -/
def escQuotes : List Char → List Char
  | [] => []
  | c :: cs => if c = squote then squote :: squote :: escQuotes cs else c :: escQuotes cs

/-- Model of `sqlEscape`: `NULL` for `null`/`undefined` (`none`) and for the
empty string; otherwise the value single-quoted with embedded quotes
doubled. -/
def sqlEscape (value : Option String) : String :=
  match value with
  | none => "NULL"
  | some s => if s = "" then "NULL" else String.mk (squote :: escQuotes s.data ++ [squote])

/-- Model of `parseInt(s, 10)`: skip leading whitespace, read an optional
sign and then leading decimal digits; `none` models `NaN` (no parsable
leading integer). -/
def jsParseInt (s : String) : Option Int :=
  let cs := s.data.dropWhile fun c => c = ' ' ∨ c = Char.ofNat 9 ∨ c = Char.ofNat 10 ∨ c = Char.ofNat 13
  match cs with
  | c :: t =>
    if c = '-' then (digitsVal t).map fun v => -(v : Int)
    else if c = '+' then (digitsVal t).map fun v => (v : Int)
    else (digitsVal cs).map fun v => (v : Int)
  | [] => none
where
  /-- Value of the leading decimal-digit run, if nonempty. -/
  digitsVal (cs : List Char) : Option Nat :=
    let ds := cs.takeWhile Char.isDigit
    if ds = [] then none
    else some (ds.foldl (fun a c => a * 10 + (c.toNat - 48)) 0)

/-- The SQL text interpolated for the `github_id` column: the script
computes `row.github_id ? parseInt(row.github_id, 10) : null` and renders it
with `${githubId ?? "NULL"}` — so a truthy but non-numeric `github_id`
renders as the bare token `NaN`. -/
def githubIdSql (github_id : Option String) : String :=
  match github_id with
  | none => "NULL"
  | some s =>
    if s = "" then "NULL"
    else
      match jsParseInt s with
      | none => "NaN"
      | some v => toString v

/-- One legacy row of the PocketBase query.  The `regular_jwk` field is
modelled by the outcome of `JSON.parse` on the stored payload (a platform
primitive): `none` when the payload is not valid JSON, otherwise the parsed
object's `kty`/`n`/`e`/`d` fields, each possibly absent or empty. -/
structure LegacyRow where
  user_id : String
  email : String
  name : String
  created : String
  updated : String
  wallet_address : String
  regular_jwk : Option Jwk
  wallet_created : String
  wallet_updated : String
  github_id : Option String
  google_id : Option String
deriving DecidableEq

/-- The fixed column-list head of the generated user `INSERT`. -/
def userInsertHead : String :=
  "INSERT INTO users (id, email, name, avatar_url, github_id, github_username, github_access_token, google_id, google_access_token, created_at, updated_at)"

/-- The `NOT EXISTS` guard on the user's email that terminates the user
`INSERT`. -/
def userGuardSql (email : String) : String :=
  " WHERE NOT EXISTS (SELECT 1 FROM users WHERE email = " ++ sqlEscape (some email) ++ ");"

/-- The `SELECT` clause of the generated user statement: the row values in
column order. -/
def userInsertMiddle (row : LegacyRow) (userId : String) : String :=
  " SELECT " ++ sqlEscape (some userId) ++ ", " ++ sqlEscape (some row.email) ++ ", " ++
      sqlEscape (some row.name) ++ ", NULL," ++
    " " ++ githubIdSql row.github_id ++ ", NULL, NULL," ++
    " " ++ sqlEscape row.google_id ++ ", NULL," ++
    " " ++ sqlEscape (some row.created) ++ ", " ++ sqlEscape (some row.updated)

/-- The generated user `INSERT ... SELECT ... WHERE NOT EXISTS` statement
(lines 342–349 of the script, with the same text and value order). -/
def userInsertSql (row : LegacyRow) (userId : String) : String :=
  userInsertHead ++ userInsertMiddle row userId ++ userGuardSql row.email

/-- The fixed column-list head of the generated wallet `INSERT`. -/
def walletInsertHead : String :=
  "INSERT INTO wallets (id, user_id, address, encrypted_jwk, salt, created_at, updated_at)"

/-- The two `NOT EXISTS` guards that terminate the wallet `INSERT`: none on
a wallet already linked to the resolved user, and none on a wallet with the
same address. -/
def walletGuardSql (email address : String) : String :=
  " WHERE NOT EXISTS (SELECT 1 FROM wallets WHERE user_id = (SELECT id FROM users WHERE email = " ++
    sqlEscape (some email) ++ "))" ++
  "   AND NOT EXISTS (SELECT 1 FROM wallets WHERE address = " ++ sqlEscape (some address) ++ ");"

/-- The `SELECT` clause of the generated wallet statement: the fresh wallet
id, the resolved user id subquery, and the row values. -/
def walletInsertMiddle (row : LegacyRow) (walletId : String) (enc : EncBlob) : String :=
  " SELECT " ++ sqlEscape (some walletId) ++ "," ++
    " (SELECT id FROM users WHERE email = " ++ sqlEscape (some row.email) ++ ")," ++
    " " ++ sqlEscape (some row.wallet_address) ++ ", " ++ sqlEscape (some enc.encrypted) ++ ", " ++
      sqlEscape (some enc.salt) ++ "," ++
    " " ++ sqlEscape (some row.wallet_created) ++ ", " ++ sqlEscape (some row.wallet_updated)

/-- The generated wallet `INSERT ... SELECT ... WHERE NOT EXISTS ... AND NOT
EXISTS` statement (lines 353–361 of the script). -/
def walletInsertSql (row : LegacyRow) (walletId : String) (enc : EncBlob) : String :=
  walletInsertHead ++ walletInsertMiddle row walletId enc ++ walletGuardSql row.email row.wallet_address

/-- The per-user comment line pushed before each statement pair. -/
def commentLine (row : LegacyRow) : String :=
  "-- User: " ++ row.email ++ " (legacy ID: " ++ row.user_id ++ ")"

/-- Model of the script's main `for` loop over legacy rows.  `uuids` is the
stream of `crypto.randomUUID()` results (two are drawn per row, before the
payload is examined, exactly as in the script); `rands` is the stream of
`(salt, iv)` pairs drawn by `encryptJwk` (one per successfully transformed
row).  Returns the pushed statement lines and the `migrated`/`skipped`
counters. -/
def runLoop (masterKey : String) (uuids : Nat → String) (rands : Nat → List Nat × List Nat) :
    List LegacyRow → Nat → Nat → List String × Nat × Nat
  | [], _, _ => ([], 0, 0)
  | row :: rest, u, r =>
    let userId := uuids u
    let walletId := uuids (u + 1)
    match row.regular_jwk with
    | none =>
      let out := runLoop masterKey uuids rands rest (u + 2) r
      (out.1, out.2.1, out.2.2 + 1)
    | some jwk =>
      if falsy jwk.n || falsy jwk.e || falsy jwk.d then
        let out := runLoop masterKey uuids rands rest (u + 2) r
        (out.1, out.2.1, out.2.2 + 1)
      else
        let enc := encryptJwk jwk masterKey (rands r).1 (rands r).2
        let out := runLoop masterKey uuids rands rest (u + 2) (r + 1)
        (commentLine row :: userInsertSql row userId ::
          walletInsertSql row walletId enc :: "" :: out.1,
          out.2.1 + 1, out.2.2)

/-- The header comment block plus statement lines, joined with newlines —
the content written to `legacy-migration.sql`.  `now` is the generation
timestamp. -/
def artifactText (now : String) (rowCount : Nat) (stmts : List String) : String :=
  String.intercalate (String.mk [Char.ofNat 10])
    (["-- Legacy PocketBase user migration",
      "-- Generated: " ++ now,
      "-- Users to migrate: " ++ toString rowCount,
      ""] ++ stmts)

/-! ### Whole-run outcome -/

/-- The externally observable outcome of a run: the process exit code and
the output artifact, `none` when `legacy-migration.sql` is never written. -/
structure RunOutcome where
  exitCode : Nat
  artifact : Option String
deriving DecidableEq

/-- The validation outcomes after which the script proceeds to row work. -/
def proceeds : ValidationResult → Bool
  | .proceedWarnQueryFailed => true
  | .proceedWarnNoRows => true
  | .proceedValidated => true
  | _ => false

/-- Model of the script's top level: require `WALLET_ENCRYPTION_KEY`
(exit 1 if absent), validate the key (exit 1 on either abort; an uncaught
rethrown error also terminates the process with a non-zero code and nothing
written), exit 0 early when there are no legacy rows, otherwise run the
loop and write the artifact. -/
def runMain (env : Option String) (stSalt stIv : List Nat) (q : LiveQuery)
    (uuids : Nat → String) (rands : Nat → List Nat × List Nat)
    (rows : List LegacyRow) (now : String) : RunOutcome :=
  match env with
  | none => { exitCode := 1, artifact := none }
  | some masterKey =>
    match validateEncryptionKey masterKey stSalt stIv q with
    | .abortSelfTest => { exitCode := 1, artifact := none }
    | .abortKeyMismatch => { exitCode := 1, artifact := none }
    | .rethrow _ => { exitCode := 1, artifact := none }
    | _ =>
      if rows.length = 0 then { exitCode := 0, artifact := none }
      else
        let out := runLoop masterKey uuids rands rows 0 0
        { exitCode := 0, artifact := some (artifactText now rows.length out.1) }

/-! ### Concrete fixtures used to exercise the theorems below -/

/-- A small valid JWK used as a test vector. -/
def wJwk : Jwk := { kty := none, n := some "x", e := some "y", d := some "z" }

/-- A legacy row with a valid JWK payload. -/
def wRowGood : LegacyRow :=
  { user_id := "L1", email := "a", name := "", created := "c", updated := "u",
    wallet_address := "W", regular_jwk := some wJwk, wallet_created := "wc",
    wallet_updated := "wu", github_id := some "abc", google_id := none }

/-- A legacy row whose payload is not valid JSON (`JSON.parse` fails). -/
def wRowBad : LegacyRow := { wRowGood with email := "b", regular_jwk := none }

/-- A legacy row with an empty email. -/
def wRowEmptyEmail : LegacyRow := { wRowGood with email := "" }

/-- A deterministic UUID stream for concrete runs. -/
def wUuids : Nat → String := fun n => "uuid" ++ toString n

/-- A deterministic randomness stream for concrete runs. -/
def wRands : Nat → List Nat × List Nat := fun _ => ([1, 2], [3, 4])

/-- A 12-byte IV fixture. -/
def wIv12 : List Nat := [0, 1, 2, 3, 4, 5, 6, 7, 8, 9, 10, 11]

/-- Well-formedness of the randomness drawn by one `encryptJwk` call: the
IV has the length `crypto.getRandomValues(new Uint8Array(12))` always
produces, and salt and IV consist of genuine bytes. -/
def GoodRand (salt iv : List Nat) : Prop :=
  iv.length = IV_LENGTH ∧ (∀ b ∈ salt, b < 256) ∧ (∀ b ∈ iv, b < 256)

instance (salt iv : List Nat) : Decidable (GoodRand salt iv) := by
  unfold GoodRand
  infer_instance

/-! ## Lemmas about the byte encodings -/

theorem natDigits_lt (fuel n : Nat) : ∀ d ∈ natDigits fuel n, d < 255 := by
  induction fuel generalizing n with
  | zero => simp [natDigits]
  | succ fuel ih =>
    intro d hd
    simp only [natDigits] at hd
    by_cases h : n = 0
    · simp [h] at hd
    · simp only [if_neg h, List.mem_cons] at hd
      rcases hd with rfl | hd
      · exact Nat.mod_lt _ (by omega)
      · exact ih _ _ hd

theorem decNat_natDigits (fuel n : Nat) (h : n ≤ fuel) (rest : List Nat) :
    decNat (natDigits fuel n ++ 255 :: rest) = some (n, rest) := by
  induction fuel generalizing n with
  | zero =>
    have : n = 0 := by omega
    subst this
    simp [natDigits, decNat]
  | succ fuel ih =>
    by_cases h0 : n = 0
    · subst h0
      simp [natDigits, decNat]
    · have hlt : n % 255 < 255 := Nat.mod_lt _ (by omega)
      have hdiv : n / 255 ≤ fuel := by
        have : n / 255 < n := Nat.div_lt_self (by omega) (by omega)
        omega
      simp only [natDigits, if_neg h0, List.cons_append, decNat, if_neg (by omega : ¬ n % 255 = 255)]
      rw [ih _ hdiv]
      simp only [Option.some.injEq, Prod.mk.injEq]
      exact ⟨Nat.mod_add_div n 255, trivial⟩

theorem decNat_encNat (n : Nat) (rest : List Nat) :
    decNat (encNat n ++ rest) = some (n, rest) := by
  have := decNat_natDigits n n (Nat.le_refl n) rest
  simpa [encNat] using this

theorem encNat_le (n : Nat) : ∀ b ∈ encNat n, b ≤ 255 := by
  intro b hb
  simp only [encNat, List.mem_append, List.mem_singleton] at hb
  rcases hb with hb | rfl
  · exact Nat.le_of_lt (natDigits_lt _ _ _ hb)
  · exact Nat.le_refl _

theorem decNats_encNats (l : List Nat) (rest : List Nat) :
    decNats l.length (encNats l ++ rest) = some (l, rest) := by
  induction l with
  | nil => simp [encNats, decNats]
  | cons x xs ih =>
    simp only [List.length_cons, encNats, List.append_assoc, decNats, decNat_encNat, ih]

theorem encNats_le (l : List Nat) : ∀ b ∈ encNats l, b ≤ 255 := by
  induction l with
  | nil => simp [encNats]
  | cons x xs ih =>
    intro b hb
    simp only [encNats, List.mem_append] at hb
    rcases hb with hb | hb
    · exact encNat_le _ _ hb
    · exact ih _ hb

theorem decBytes_encBytes (l : List Nat) (rest : List Nat) :
    decBytes (encBytes l ++ rest) = some (l, rest) := by
  simp only [encBytes, List.append_assoc, decBytes, decNat_encNat, decNats_encNats]

theorem encBytes_le (l : List Nat) : ∀ b ∈ encBytes l, b ≤ 255 := by
  intro b hb
  simp only [encBytes, List.mem_append] at hb
  rcases hb with hb | hb
  · exact encNat_le _ _ hb
  · exact encNats_le _ _ hb

/-! ## Lemmas about base64 -/

theorem sextetOf_b64Char : ∀ n < 64, sextetOf (b64Char n) = some n := by decide

theorem b64Char_ne_pad : ∀ n, b64Char n ≠ b64EncodeChunks.pad := by
  intro n
  have h : n % 64 < 64 := Nat.mod_lt _ (by omega)
  have hall : ∀ m < 64, base64Chars.getD m 'A' ≠ b64EncodeChunks.pad := by decide
  exact hall _ h

theorem b64_roundtrip_fuel : ∀ (fuel : Nat) (bs : List Nat), bs.length ≤ fuel →
    (∀ b ∈ bs, b < 256) → b64DecodeChunks (b64EncodeChunks bs) = some bs := by
  intro fuel
  induction fuel with
  | zero =>
    intro bs hlen _
    have : bs = [] := List.length_eq_zero.mp (by omega)
    subst this
    rfl
  | succ fuel ih =>
    intro bs hlen hb
    match bs with
    | [] => rfl
    | [b0] =>
      have h0 : b0 < 256 := hb b0 (by simp)
      simp only [b64EncodeChunks, b64DecodeChunks,
        sextetOf_b64Char (b0 / 4) (by omega), sextetOf_b64Char (b0 % 4 * 16) (by omega)]
      simp only [and_self, ite_true, if_pos, Option.some.injEq, List.cons.injEq, and_true,
        eq_self_iff_true, if_true]
      omega
    | [b0, b1] =>
      have h0 : b0 < 256 := hb b0 (by simp)
      have h1 : b1 < 256 := hb b1 (by simp)
      simp only [b64EncodeChunks, b64DecodeChunks,
        sextetOf_b64Char (b0 / 4) (by omega),
        sextetOf_b64Char (b0 % 4 * 16 + b1 / 16) (by omega),
        sextetOf_b64Char (b1 % 16 * 4) (by omega),
        if_neg (b64Char_ne_pad (b1 % 16 * 4))]
      simp only [and_self, ite_true, Option.some.injEq, List.cons.injEq, and_true,
        eq_self_iff_true, if_true]
      omega
    | b0 :: b1 :: b2 :: rest =>
      have h0 : b0 < 256 := hb b0 (by simp)
      have h1 : b1 < 256 := hb b1 (by simp)
      have h2 : b2 < 256 := hb b2 (by simp)
      have hrest : ∀ b ∈ rest, b < 256 := fun b hbr => hb b (by simp [hbr])
      have hlen' : rest.length ≤ fuel := by
        simp only [List.length_cons] at hlen
        omega
      simp only [b64EncodeChunks, b64DecodeChunks,
        sextetOf_b64Char (b0 / 4) (by omega),
        sextetOf_b64Char (b0 % 4 * 16 + b1 / 16) (by omega),
        sextetOf_b64Char (b1 % 16 * 4 + b2 / 64) (by omega),
        sextetOf_b64Char (b2 % 64) (by omega),
        if_neg (b64Char_ne_pad (b1 % 16 * 4 + b2 / 64)),
        if_neg (b64Char_ne_pad (b2 % 64)),
        ih rest hlen' hrest, Option.some.injEq, List.cons.injEq, and_true]
      refine ⟨by omega, by omega, by omega⟩

theorem atobM_btoaM (bs : List Nat) (hb : ∀ b ∈ bs, b < 256) : atobM (btoaM bs) = some bs :=
  b64_roundtrip_fuel bs.length bs (Nat.le_refl _) hb

theorem charToNat_injective : Function.Injective Char.toNat := by
  intro a b h
  have ha := Char.ofNat_toNat a
  have hb := Char.ofNat_toNat b
  rw [← ha, ← hb, h]

theorem textEncode_inj {s t : String} (h : textEncode s = textEncode t) : s = t := by
  have hdata : s.data = t.data := List.map_injective_iff.mpr charToNat_injective h
  cases s
  cases t
  exact congrArg String.mk hdata

/-! ## Lemmas about the ideal cipher and the JWK serialization -/

theorem textDecode_textEncode (s : String) : textDecode (textEncode s) = s := by
  unfold textDecode textEncode
  rw [List.map_map]
  have : (Char.ofNat ∘ Char.toNat) = id := by
    funext c
    exact Char.ofNat_toNat c
  rw [this, List.map_id]

theorem decOptStr_encOptStr (v : Option String) (rest : List Nat) :
    decOptStr (encOptStr v ++ rest) = some (v, rest) := by
  cases v with
  | none => simp only [encOptStr, decOptStr, decNat_encNat]
  | some s =>
    simp only [encOptStr, decOptStr, List.append_assoc, decNat_encNat, decBytes_encBytes,
      textDecode_textEncode]

theorem decOptStr_encOptStr_nil (v : Option String) : decOptStr (encOptStr v) = some (v, []) := by
  have := decOptStr_encOptStr v []
  simpa using this

theorem jwkOfBytes_jwkToBytes (j : Jwk) : jwkOfBytes (jwkToBytes j) = some j := by
  have h : jwkToBytes j =
      encOptStr j.kty ++ (encOptStr j.n ++ (encOptStr j.e ++ (encOptStr j.d ++ []))) := by
    simp [jwkToBytes]
  simp [jwkOfBytes, h, decOptStr_encOptStr, decOptStr_encOptStr_nil]

theorem gcmDecrypt_gcmEncrypt (key : DerivedKey) (iv pt : List Nat) :
    gcmDecrypt key iv (gcmEncrypt key iv pt) = some pt := by
  unfold gcmDecrypt gcmEncrypt
  rw [if_pos (List.take_left _ _), List.drop_left]

theorem gcmTag_append_inj {k₁ k₂ : DerivedKey} {iv₁ iv₂ u v : List Nat}
    (h : gcmTag k₁ iv₁ ++ u = gcmTag k₂ iv₂ ++ v) : k₁ = k₂ ∧ iv₁ = iv₂ ∧ u = v := by
  unfold gcmTag at h
  simp only [List.append_assoc] at h
  have e₁ := decBytes_encBytes k₁.master (encBytes k₁.salt ++ (encBytes iv₁ ++ u))
  rw [h, decBytes_encBytes] at e₁
  simp only [Option.some.injEq, Prod.mk.injEq] at e₁
  obtain ⟨hm, hrest₁⟩ := e₁
  have e₂ := decBytes_encBytes k₂.salt (encBytes iv₂ ++ v)
  rw [hrest₁, decBytes_encBytes] at e₂
  simp only [Option.some.injEq, Prod.mk.injEq] at e₂
  obtain ⟨hs, hrest₂⟩ := e₂
  have e₃ := decBytes_encBytes iv₁ u
  rw [hrest₂, decBytes_encBytes] at e₃
  simp only [Option.some.injEq, Prod.mk.injEq] at e₃
  obtain ⟨hiv, hu⟩ := e₃
  refine ⟨?_, hiv.symm, hu.symm⟩
  cases k₁
  cases k₂
  simp_all

theorem gcmDecrypt_wrong_key (k₁ k₂ : DerivedKey) (iv pt : List Nat) (hne : k₁ ≠ k₂) :
    gcmDecrypt k₂ iv (gcmEncrypt k₁ iv pt) = none := by
  unfold gcmDecrypt gcmEncrypt
  rw [if_neg]
  intro hEq
  have hpre : gcmTag k₂ iv <+: gcmTag k₁ iv ++ pt := by
    rw [← hEq]
    exact List.take_prefix _ _
  obtain ⟨w, hw⟩ := hpre
  obtain ⟨hk, -, -⟩ := gcmTag_append_inj hw
  exact hne hk.symm

theorem encOptStr_le (v : Option String) : ∀ b ∈ encOptStr v, b ≤ 255 := by
  cases v with
  | none => exact encNat_le 0
  | some s =>
    intro b hb
    simp only [encOptStr, List.mem_append] at hb
    rcases hb with hb | hb
    · exact encNat_le _ _ hb
    · exact encBytes_le _ _ hb

theorem jwkToBytes_lt (j : Jwk) : ∀ b ∈ jwkToBytes j, b < 256 := by
  intro b hb
  simp only [jwkToBytes, List.mem_append] at hb
  have : b ≤ 255 := by
    rcases hb with ((hb | hb) | hb) | hb
    · exact encOptStr_le _ _ hb
    · exact encOptStr_le _ _ hb
    · exact encOptStr_le _ _ hb
    · exact encOptStr_le _ _ hb
  omega

theorem gcmTag_lt (key : DerivedKey) (iv : List Nat) : ∀ b ∈ gcmTag key iv, b < 256 := by
  intro b hb
  simp only [gcmTag, List.mem_append] at hb
  have : b ≤ 255 := by
    rcases hb with (hb | hb) | hb
    · exact encBytes_le _ _ hb
    · exact encBytes_le _ _ hb
    · exact encBytes_le _ _ hb
  omega

theorem decryptJwk_encryptJwk (j : Jwk) (mk : String) (salt iv : List Nat)
    (h : GoodRand salt iv) :
    decryptJwk (encryptJwk j mk salt iv).encrypted (encryptJwk j mk salt iv).salt mk = .ok j := by
  obtain ⟨hiv, hs, hi⟩ := h
  unfold encryptJwk decryptJwk
  simp only
  have hcomb : ∀ b ∈ iv ++ gcmEncrypt (deriveKey mk salt) iv (jwkToBytes j), b < 256 := by
    intro b hb
    simp only [gcmEncrypt, List.mem_append] at hb
    rcases hb with hb | hb | hb
    · exact hi _ hb
    · exact gcmTag_lt _ _ _ hb
    · exact jwkToBytes_lt _ _ hb
  rw [atobM_btoaM _ hcomb, atobM_btoaM salt hs]
  simp only [← hiv, List.take_left, List.drop_left, gcmDecrypt_gcmEncrypt,
    jwkOfBytes_jwkToBytes]

theorem decryptJwk_encryptJwk_wrong (j : Jwk) (mk₁ mk₂ : String) (salt iv : List Nat)
    (hne : mk₁ ≠ mk₂) (h : GoodRand salt iv) :
    decryptJwk (encryptJwk j mk₁ salt iv).encrypted (encryptJwk j mk₁ salt iv).salt mk₂ =
      .error .operationError := by
  obtain ⟨hiv, hs, hi⟩ := h
  unfold encryptJwk decryptJwk
  simp only
  have hcomb : ∀ b ∈ iv ++ gcmEncrypt (deriveKey mk₁ salt) iv (jwkToBytes j), b < 256 := by
    intro b hb
    simp only [gcmEncrypt, List.mem_append] at hb
    rcases hb with hb | hb | hb
    · exact hi _ hb
    · exact gcmTag_lt _ _ _ hb
    · exact jwkToBytes_lt _ _ hb
  rw [atobM_btoaM _ hcomb, atobM_btoaM salt hs]
  have hkne : deriveKey mk₁ salt ≠ deriveKey mk₂ salt := by
    intro hEq
    apply hne
    apply textEncode_inj
    simpa [deriveKey] using congrArg DerivedKey.master hEq
  simp only [← hiv, List.take_left, List.drop_left,
    gcmDecrypt_wrong_key _ _ _ _ hkne]

/-! ## Shared validation lemmas -/

theorem validate_selfTest_passes (mk : String) (salt iv : List Nat) (h : GoodRand salt iv)
    (q : LiveQuery) :
    selfTestDecrypt mk salt iv = .ok testJwk ∧
      validateEncryptionKey mk salt iv q = liveValidate mk q := by
  have hst : selfTestDecrypt mk salt iv = .ok testJwk :=
    decryptJwk_encryptJwk testJwk mk salt iv h
  refine ⟨hst, ?_⟩
  unfold validateEncryptionKey
  rw [hst]
  simp [show selfTestCheckFails testJwk = false from by decide]

/-! ## Claim theorems -/

/-- C2: for every WalletSecret (JWK) value `w` and every master secret
string `k`, `decryptJwk` applied with `k` to the (encrypted blob, salt)
pair produced by `encryptJwk w k` returns a JWK equal to `w` (for any
well-formed randomness drawn by the encryption call). -/
theorem jwk_encrypt_decrypt_roundtrip (w : Jwk) (k : String) (salt iv : List Nat)
    (h : GoodRand salt iv) :
    decryptJwk (encryptJwk w k salt iv).encrypted (encryptJwk w k salt iv).salt k = .ok w :=
  decryptJwk_encryptJwk w k salt iv h

theorem jwk_encrypt_decrypt_roundtrip_witness :
    decryptJwk (encryptJwk wJwk "master-secret" [7] wIv12).encrypted
      (encryptJwk wJwk "master-secret" [7] wIv12).salt "master-secret" = .ok wJwk :=
  jwk_encrypt_decrypt_roundtrip wJwk "master-secret" [7] wIv12 (by decide)

/-- C3: for every WalletSecret `w` and distinct master secrets `k₁ ≠ k₂`,
decrypting `encryptJwk w k₁` with `k₂` raises the authentication error
(`OperationError`) — it never returns a value. -/
theorem jwk_decrypt_wrong_key_fails (w : Jwk) (k₁ k₂ : String) (salt iv : List Nat)
    (hne : k₁ ≠ k₂) (h : GoodRand salt iv) :
    decryptJwk (encryptJwk w k₁ salt iv).encrypted (encryptJwk w k₁ salt iv).salt k₂ =
      .error .operationError :=
  decryptJwk_encryptJwk_wrong w k₁ k₂ salt iv hne h

theorem jwk_decrypt_wrong_key_fails_witness :
    decryptJwk (encryptJwk wJwk "key-one" [7] wIv12).encrypted
      (encryptJwk wJwk "key-one" [7] wIv12).salt "key-two" = .error .operationError :=
  jwk_decrypt_wrong_key_fails wJwk "key-one" "key-two" [7] wIv12 (by decide) (by decide)

/-- C5: `decryptJwk` fails with the malformed-input error
(`InvalidCharacterError`) when the blob or the salt is not valid base64;
when the decoded blob is shorter than the 12-byte nonce length it fails
with the cipher's error rather than returning; and on every successful
decryption the blob was split into nonce (first 12 bytes) and
ciphertext-plus-tag (remainder). -/
theorem decrypt_malformed_input (encrypted salt mk : String) :
    (atobM encrypted = none → decryptJwk encrypted salt mk = .error .invalidCharacter) ∧
    (∀ bs, atobM encrypted = some bs → atobM salt = none →
      decryptJwk encrypted salt mk = .error .invalidCharacter) ∧
    (∀ bs ss, atobM encrypted = some bs → atobM salt = some ss → bs.length < IV_LENGTH →
      decryptJwk encrypted salt mk = .error .operationError) ∧
    (∀ bs ss j, atobM encrypted = some bs → atobM salt = some ss →
      decryptJwk encrypted salt mk = .ok j →
      ∃ pt, gcmDecrypt (deriveKey mk ss) (bs.take IV_LENGTH) (bs.drop IV_LENGTH) = some pt ∧
        jwkOfBytes pt = some j) := by
  refine ⟨?_, ?_, ?_, ?_⟩
  · intro h
    unfold decryptJwk
    rw [h]
  · intro bs hbs hsalt
    unfold decryptJwk
    rw [hbs, hsalt]
  · intro bs ss hbs hss hlen
    unfold decryptJwk
    rw [hbs, hss]
    have hdrop : bs.drop IV_LENGTH = [] := List.drop_eq_nil_of_le (by omega)
    have htag : gcmDecrypt (deriveKey mk ss) (bs.take IV_LENGTH) (bs.drop IV_LENGTH) = none := by
      rw [hdrop]
      unfold gcmDecrypt
      rw [if_neg]
      intro hEq
      have : gcmTag (deriveKey mk ss) (bs.take IV_LENGTH) = [] := by
        simpa using hEq.symm
      have hne : gcmTag (deriveKey mk ss) (bs.take IV_LENGTH) ≠ [] := by
        simp [gcmTag, encBytes, encNat]
      exact hne this
    simp only [htag]
  · intro bs ss j hbs hss hok
    unfold decryptJwk at hok
    rw [hbs, hss] at hok
    simp only at hok
    rcases hgd : gcmDecrypt (deriveKey mk ss) (bs.take IV_LENGTH) (bs.drop IV_LENGTH) with _ | pt
    · rw [hgd] at hok
      simp at hok
    · rw [hgd] at hok
      refine ⟨pt, rfl, ?_⟩
      rcases hj : jwkOfBytes pt with _ | j₂
      · simp [hj] at hok
      · simp only [hj, DecryptResult.ok.injEq] at hok
        rw [hok]

theorem decrypt_malformed_input_witness :
    decryptJwk (btoaM [1, 2, 3]) (btoaM [9]) "k" = .error .operationError :=
  (decrypt_malformed_input (btoaM [1, 2, 3]) (btoaM [9]) "k").2.2.1 [1, 2, 3] [9]
    (by decide) (by decide) (by decide)

/-- C4 counterexample: the self-test check passes on a decrypted value whose
`e` field differs from the fixture, so it is not a field-for-field equality
assertion on every fixture field. -/
theorem selftest_ignores_e_field :
    selfTestCheckFails
        { kty := some "RSA", n := some "test-n", e := some "CHANGED", d := some "test-d" } =
      false ∧
    ({ kty := some "RSA", n := some "test-n", e := some "CHANGED", d := some "test-d" } : Jwk) ≠
      testJwk := by
  decide

/-- C4 (amended): the self-test encrypts the fixed fixture, decrypts it with
the same master secret, and asserts equality of the `kty`, `n` and `d`
fields only (`e` is not compared); any difference in a checked field is
fatal, and with the cipher pipeline intact the decryption returns the
fixture exactly, so the run proceeds to live validation. -/
theorem selftest_roundtrip_checked_fields (mk : String) (salt iv : List Nat)
    (h : GoodRand salt iv) (q : LiveQuery) :
    (∀ d : Jwk, selfTestCheckFails d = false ↔
      (d.kty = testJwk.kty ∧ d.n = testJwk.n ∧ d.d = testJwk.d)) ∧
    selfTestDecrypt mk salt iv = .ok testJwk ∧
    validateEncryptionKey mk salt iv q = liveValidate mk q := by
  obtain ⟨hst, hval⟩ := validate_selfTest_passes mk salt iv h q
  refine ⟨?_, hst, hval⟩
  intro d
  unfold selfTestCheckFails
  by_cases hc : d.kty = testJwk.kty ∧ d.n = testJwk.n ∧ d.d = testJwk.d
  · simp [hc]
  · simp [hc]

theorem selftest_roundtrip_checked_fields_witness :
    selfTestDecrypt "master-secret" [7] wIv12 = .ok testJwk :=
  (selftest_roundtrip_checked_fields "master-secret" [7] wIv12 (by decide)
    { exitCode := 1, rows := none }).2.1

/-- C1 counterexample: a production wallet whose stored blob is not valid
base64 makes `decryptJwk` fail with the `InvalidCharacterError`; its message
matches none of the `catch` handler's substrings, so the error is rethrown
(crashing the run without the key-mismatch diagnostic) instead of being
treated like an authentication failure. -/
theorem base64_error_not_treated_as_mismatch :
    validateEncryptionKey "k" [7] wIv12
        { exitCode := 0,
          rows := some [{ encrypted_jwk := "!", salt := "!", address := "addr" }] } =
      .rethrow .invalidCharacter ∧
    ValidationResult.rethrow .invalidCharacter ≠ .abortKeyMismatch := by
  decide

/-- C1 (amended): after the self-test passes, an error from decrypting the
sampled production wallet whose message marks it as a decrypt failure
(containing "Unsupported state", "decrypt" or "operation" — in particular
the cipher's `OperationError`) aborts with exit 1 and the
key-does-not-match-production diagnostic; a base64 `InvalidCharacterError`
is not recognized by that filter and is rethrown as an unhandled exception
instead; a failed store query (non-zero subprocess exit) or an empty row
set degrades to a warning and proceeds on the self-test alone. -/
theorem live_validation_outcomes (mk : String) (salt iv : List Nat) (h : GoodRand salt iv)
    (q : LiveQuery) :
    (q.exitCode ≠ 0 → validateEncryptionKey mk salt iv q = .proceedWarnQueryFailed) ∧
    (q.exitCode = 0 → q.rows = none ∨ q.rows = some [] →
      validateEncryptionKey mk salt iv q = .proceedWarnNoRows) ∧
    (∀ row rest e, q.exitCode = 0 → q.rows = some (row :: rest) →
      decryptJwk row.encrypted_jwk row.salt mk = .error e →
      (strIncludes e.message "Unsupported state" || strIncludes e.message "decrypt" ||
        strIncludes e.message "operation") = true →
      validateEncryptionKey mk salt iv q = .abortKeyMismatch) ∧
    (∀ row rest, q.exitCode = 0 → q.rows = some (row :: rest) →
      decryptJwk row.encrypted_jwk row.salt mk = .error .invalidCharacter →
      validateEncryptionKey mk salt iv q = .rethrow .invalidCharacter) := by
  obtain ⟨-, hval⟩ := validate_selfTest_passes mk salt iv h q
  rw [hval]
  refine ⟨?_, ?_, ?_, ?_⟩
  · intro hexit
    unfold liveValidate
    rw [if_pos hexit]
  · intro hexit hrows
    unfold liveValidate
    rw [if_neg (by omega)]
    rcases hrows with hrows | hrows <;> rw [hrows]
  · intro row rest e hexit hrows hdec hrec
    unfold liveValidate
    rw [if_neg (by omega), hrows]
    simp only [hdec]
    unfold classifyCatch
    rw [if_pos hrec]
  · intro row rest hexit hrows hdec
    unfold liveValidate
    rw [if_neg (by omega), hrows]
    simp only [hdec]
    decide

theorem live_validation_outcomes_witness :
    validateEncryptionKey "master-secret" [7] wIv12 { exitCode := 1, rows := none } =
      .proceedWarnQueryFailed :=
  (live_validation_outcomes "master-secret" [7] wIv12 (by decide)
    { exitCode := 1, rows := none }).1 (by decide)

/-! ## Loop unfolding lemmas -/

theorem runLoop_cons_skip_none (mk : String) (uuids : Nat → String)
    (rands : Nat → List Nat × List Nat) (row : LegacyRow) (rest : List LegacyRow) (u r : Nat)
    (hnone : row.regular_jwk = none) :
    runLoop mk uuids rands (row :: rest) u r =
      ((runLoop mk uuids rands rest (u + 2) r).1,
        (runLoop mk uuids rands rest (u + 2) r).2.1,
        (runLoop mk uuids rands rest (u + 2) r).2.2 + 1) := by
  simp [runLoop, hnone]

theorem runLoop_cons_skip_falsy (mk : String) (uuids : Nat → String)
    (rands : Nat → List Nat × List Nat) (row : LegacyRow) (rest : List LegacyRow) (u r : Nat)
    (jwk : Jwk) (hjwk : row.regular_jwk = some jwk)
    (hfal : (falsy jwk.n || falsy jwk.e || falsy jwk.d) = true) :
    runLoop mk uuids rands (row :: rest) u r =
      ((runLoop mk uuids rands rest (u + 2) r).1,
        (runLoop mk uuids rands rest (u + 2) r).2.1,
        (runLoop mk uuids rands rest (u + 2) r).2.2 + 1) := by
  simp [runLoop, hjwk, hfal]

theorem runLoop_cons_emit (mk : String) (uuids : Nat → String)
    (rands : Nat → List Nat × List Nat) (row : LegacyRow) (rest : List LegacyRow) (u r : Nat)
    (jwk : Jwk) (hjwk : row.regular_jwk = some jwk)
    (hval : (falsy jwk.n || falsy jwk.e || falsy jwk.d) = false) :
    runLoop mk uuids rands (row :: rest) u r =
      (commentLine row :: userInsertSql row (uuids u) ::
          walletInsertSql row (uuids (u + 1)) (encryptJwk jwk mk (rands r).1 (rands r).2) ::
          "" :: (runLoop mk uuids rands rest (u + 2) (r + 1)).1,
        (runLoop mk uuids rands rest (u + 2) (r + 1)).2.1 + 1,
        (runLoop mk uuids rands rest (u + 2) (r + 1)).2.2) := by
  simp [runLoop, hjwk, hval]

/-- C6: a legacy record whose payload is not valid JSON, or whose parsed JWK
has a missing or empty `n`, `e` or `d` field, is counted as skipped and
contributes no statement lines, while the rest of the batch is processed
unchanged (the loop never aborts on such a record). -/
theorem malformed_row_skipped (mk : String) (uuids : Nat → String)
    (rands : Nat → List Nat × List Nat) (row : LegacyRow) (rest : List LegacyRow) (u r : Nat)
    (hbad : row.regular_jwk = none ∨
      ∃ jwk, row.regular_jwk = some jwk ∧ (falsy jwk.n || falsy jwk.e || falsy jwk.d) = true) :
    runLoop mk uuids rands (row :: rest) u r =
      ((runLoop mk uuids rands rest (u + 2) r).1,
        (runLoop mk uuids rands rest (u + 2) r).2.1,
        (runLoop mk uuids rands rest (u + 2) r).2.2 + 1) := by
  rcases hbad with hnone | ⟨jwk, hjwk, hfal⟩
  · exact runLoop_cons_skip_none mk uuids rands row rest u r hnone
  · exact runLoop_cons_skip_falsy mk uuids rands row rest u r jwk hjwk hfal

theorem malformed_row_skipped_witness :
    runLoop "k" wUuids wRands [wRowBad, wRowGood] 0 0 =
      ((runLoop "k" wUuids wRands [wRowGood] 2 0).1,
        (runLoop "k" wUuids wRands [wRowGood] 2 0).2.1,
        (runLoop "k" wUuids wRands [wRowGood] 2 0).2.2 + 1) :=
  malformed_row_skipped "k" wUuids wRands wRowBad [wRowGood] 0 0 (Or.inl (by decide))

/-- C7: every line the loop emits is a blank line, a per-user comment, a
user insert ending in the `NOT EXISTS` guard on the user's email, or a
wallet insert ending in both the linked-wallet and the address `NOT EXISTS`
guards — no emitted statement inserts unconditionally. -/
theorem statements_always_guarded (mk : String) (uuids : Nat → String)
    (rands : Nat → List Nat × List Nat) (rows : List LegacyRow) (u r : Nat) :
    ∀ s ∈ (runLoop mk uuids rands rows u r).1,
      s = "" ∨
      (∃ em uid, s = "-- User: " ++ em ++ " (legacy ID: " ++ uid ++ ")") ∨
      (∃ mid em, s = userInsertHead ++ mid ++ userGuardSql em) ∨
      (∃ mid em ad, s = walletInsertHead ++ mid ++ walletGuardSql em ad) := by
  induction rows generalizing u r with
  | nil =>
    intro s hs
    simp [runLoop] at hs
  | cons row rest ih =>
    intro s hs
    rcases hrow : row.regular_jwk with _ | jwk
    · rw [runLoop_cons_skip_none mk uuids rands row rest u r hrow] at hs
      exact ih (u + 2) r s hs
    · rcases hfal : (falsy jwk.n || falsy jwk.e || falsy jwk.d) with _ | _
      · rw [runLoop_cons_emit mk uuids rands row rest u r jwk hrow hfal] at hs
        simp only [List.mem_cons] at hs
        rcases hs with rfl | rfl | rfl | rfl | hs
        · exact Or.inr (Or.inl ⟨row.email, row.user_id, rfl⟩)
        · exact Or.inr (Or.inr (Or.inl ⟨userInsertMiddle row (uuids u), row.email, rfl⟩))
        · exact Or.inr (Or.inr (Or.inr
            ⟨walletInsertMiddle row (uuids (u + 1))
                (encryptJwk jwk mk (rands r).1 (rands r).2),
              row.email, row.wallet_address, rfl⟩))
        · exact Or.inl rfl
        · exact ih (u + 2) (r + 1) s hs
      · rw [runLoop_cons_skip_falsy mk uuids rands row rest u r jwk hrow hfal] at hs
        exact ih (u + 2) r s hs

set_option maxRecDepth 4000 in
theorem statements_always_guarded_witness :
    userInsertSql wRowGood (wUuids 0) = "" ∨
    (∃ em uid,
      userInsertSql wRowGood (wUuids 0) = "-- User: " ++ em ++ " (legacy ID: " ++ uid ++ ")") ∨
    (∃ mid em, userInsertSql wRowGood (wUuids 0) = userInsertHead ++ mid ++ userGuardSql em) ∨
    (∃ mid em ad,
      userInsertSql wRowGood (wUuids 0) = walletInsertHead ++ mid ++ walletGuardSql em ad) :=
  statements_always_guarded "k" wUuids wRands [wRowGood] 0 0
    (userInsertSql wRowGood (wUuids 0)) (by decide)

/-- C9: `sqlEscape` renders `null`/`undefined` and the empty string as the
unquoted token `NULL`, renders every other string single-quoted with each
embedded quote doubled, and consequently a legacy record with an empty
email gets a user guard comparing `email` against `NULL`. -/
theorem sqlEscape_null_and_quoting (s : String) (row : LegacyRow) (userId : String)
    (hs : s ≠ "") :
    sqlEscape none = "NULL" ∧
    sqlEscape (some "") = "NULL" ∧
    sqlEscape (some s) =
      String.mk (squote ::
        (s.data.flatMap fun c => if c = squote then [squote, squote] else [c]) ++ [squote]) ∧
    (row.email = "" →
      userInsertSql row userId =
        userInsertHead ++ userInsertMiddle row userId ++
          " WHERE NOT EXISTS (SELECT 1 FROM users WHERE email = NULL);") := by
  refine ⟨rfl, rfl, ?_, ?_⟩
  · unfold sqlEscape
    simp only
    rw [if_neg hs]
    have hesc : ∀ cs : List Char,
        escQuotes cs = cs.flatMap fun c => if c = squote then [squote, squote] else [c] := by
      intro cs
      induction cs with
      | nil => rfl
      | cons c t ih => by_cases hc : c = squote <;> simp [escQuotes, hc, ih]
    rw [hesc]
  · intro hemail
    unfold userInsertSql userGuardSql
    rw [hemail]
    congr 1

theorem sqlEscape_null_and_quoting_witness :
    userInsertSql wRowEmptyEmail "u0" =
      userInsertHead ++ userInsertMiddle wRowEmptyEmail "u0" ++
        " WHERE NOT EXISTS (SELECT 1 FROM users WHERE email = NULL);" :=
  (sqlEscape_null_and_quoting "x" wRowEmptyEmail "u0" (by decide)).2.2.2 (by decide)

/-- C10: a legacy record whose `github_id` is a non-empty string with no
leading parsable integer (here "abc") makes `parseInt` produce `NaN`, which
the nullish-coalescing fallback does not replace, so the emitted user
insert contains the bare token `NaN` in the `github_id` column position. -/
theorem nan_github_id_emitted :
    jsParseInt "abc" = none ∧
    githubIdSql (some "abc") = "NaN" ∧
    strIncludes (userInsertSql wRowGood "u0") ", NULL, NaN, NULL, NULL, " = true := by
  decide

/-- C8: the run exits 1 and writes no artifact when the master secret is
absent, when the self-test aborts, or when live validation proves the key
wrong; after a proceed outcome it exits 0 (with no artifact when there is
nothing to migrate, with the artifact written otherwise); and on every
non-zero exit the output file is left unwritten. -/
theorem run_exit_behavior (env : Option String) (stSalt stIv : List Nat) (q : LiveQuery)
    (uuids : Nat → String) (rands : Nat → List Nat × List Nat) (rows : List LegacyRow)
    (now : String) :
    (env = none →
      runMain env stSalt stIv q uuids rands rows now = { exitCode := 1, artifact := none }) ∧
    (∀ mk, env = some mk → validateEncryptionKey mk stSalt stIv q = .abortSelfTest →
      runMain env stSalt stIv q uuids rands rows now = { exitCode := 1, artifact := none }) ∧
    (∀ mk, env = some mk → validateEncryptionKey mk stSalt stIv q = .abortKeyMismatch →
      runMain env stSalt stIv q uuids rands rows now = { exitCode := 1, artifact := none }) ∧
    (∀ mk, env = some mk → proceeds (validateEncryptionKey mk stSalt stIv q) = true → rows = [] →
      runMain env stSalt stIv q uuids rands rows now = { exitCode := 0, artifact := none }) ∧
    (∀ mk, env = some mk → proceeds (validateEncryptionKey mk stSalt stIv q) = true → rows ≠ [] →
      (runMain env stSalt stIv q uuids rands rows now).exitCode = 0 ∧
      (runMain env stSalt stIv q uuids rands rows now).artifact ≠ none) ∧
    ((runMain env stSalt stIv q uuids rands rows now).exitCode ≠ 0 →
      (runMain env stSalt stIv q uuids rands rows now).artifact = none) := by
  refine ⟨?_, ?_, ?_, ?_, ?_, ?_⟩
  · rintro rfl
    rfl
  · rintro mk rfl hv
    simp [runMain, hv]
  · rintro mk rfl hv
    simp [runMain, hv]
  · rintro mk rfl hv hrows
    subst hrows
    rcases hval : validateEncryptionKey mk stSalt stIv q <;>
      simp_all [runMain, proceeds]
  · rintro mk rfl hv hrows
    have hlen : rows.length ≠ 0 := by
      intro h0
      exact hrows (List.length_eq_zero.mp h0)
    rcases hval : validateEncryptionKey mk stSalt stIv q <;>
      simp_all [runMain, proceeds, hlen]
  · rcases env with _ | mk
    · intro _
      rfl
    · rcases hval : validateEncryptionKey mk stSalt stIv q <;>
        simp only [runMain, hval] <;>
        first
        | exact fun _ => rfl
        | (by_cases hr : rows.length = 0 <;> simp [hr])

theorem run_exit_behavior_witness :
    runMain none [7] wIv12 { exitCode := 1, rows := none } wUuids wRands [] "ts" =
      { exitCode := 1, artifact := none } :=
  (run_exit_behavior none [7] wIv12 { exitCode := 1, rows := none } wUuids wRands [] "ts").1 rfl
